import Mathlib

/-!
# Verification of the gmaxfeed cache-or-fetch orchestration layer

Shallow embedding, in Lean 4, of the cache-or-fetch orchestration layer of
the `gmaxfeed` repository (`src/gmaxfeed/feeds/postrace_feeds.py` and
`src/gmaxfeed/feeds/utils.py`; the historical revision
`src/feeds/postrace_feeds.py` is embedded where noted).

Modelling conventions:
* Python JSON-ish values are embedded as `PyVal`, with Python truthiness
  as `truthy`.
* The per-entity-type file store ("Entity Store") is an association list
  from a key (the cache file name) to `(mtime, contents)`.  File
  modification times and datetimes are `Int` seconds since the epoch.
* `read_url` failure (`False` in Python) is `Option.none`.  A network
  response is a deterministic `Option String` supplied as a parameter.
* External library functions (`json.loads`, `dateutil.parser.parse`,
  `alter_sectionals_gate_label`'s float formatting) are taken as explicit
  function parameters of the model; the repository code under scrutiny
  never depends on their internals for the properties proved here.
* The `no_return` flag of the Python resolvers is fixed to `False`
  (the memory-saving variant only replaces returned payloads by `None`).
* `reads` counts calls of `load_file` (Entity Store reads), `net` counts
  calls of `read_url` (network fetch attempts).
-/

/-- Embedding of the Python/JSON values flowing through the feed code:
`None`, booleans, integers, strings, lists and string-keyed dicts. -/
inductive PyVal : Type where
  | pnone : PyVal
  | pbool : Bool → PyVal
  | pint  : Int → PyVal
  | pstr  : String → PyVal
  | plist : List PyVal → PyVal
  | pdict : List (String × PyVal) → PyVal
deriving Repr

/-- Python truthiness for the embedded values (`bool(x)`). -/
def truthy : PyVal → Bool
  | .pnone => false
  | .pbool b => b
  | .pint n => decide (n ≠ 0)
  | .pstr s => decide (s ≠ "")
  | .plist l => !l.isEmpty
  | .pdict l => !l.isEmpty

/-- `x.get(k)` with default `None`, for dict values; non-dicts yield `None`
(the Python code only calls `.get` on dicts). -/
def dictGetD : PyVal → String → PyVal
  | .pdict l, k =>
    match l.find? (fun kv => decide (kv.1 = k)) with
    | some kv => kv.2
    | none => .pnone
  | _, _ => .pnone

/-- `k in d` membership test for dict values. -/
def dictHasKey : PyVal → String → Bool
  | .pdict l, k => l.any (fun kv => decide (kv.1 = k))
  | _, _ => false

/-- `a or b` for Python values: `a` when truthy, else `b`. -/
def pyOr (a b : PyVal) : PyVal := if truthy a then a else b

/-- An entity type's on-disk cache directory: file name ↦ (mtime, contents).
`none` means the file does not exist. -/
def Store (κ : Type) : Type := List (κ × Int × PyVal)

/-- `os.path.exists` + `os.path.getmtime` + parsed contents of a cache file. -/
def Store.lookup {κ : Type} [DecidableEq κ] (st : Store κ) (k : κ) :
    Option (Int × PyVal) :=
  (List.find? (fun e => decide (e.1 = k)) st).map (fun e => e.2)

/-- `utils.dump_file`: (over)write the cache file `k`; the filesystem stamps
the file with the current time `now`. -/
def Store.insert {κ : Type} [DecidableEq κ] (st : Store κ) (k : κ) (now : Int)
    (v : PyVal) : Store κ :=
  (k, now, v) :: List.filter (fun e => !decide (e.1 = k)) st

/-- `utils.load_file` / `utils.read_file`: contents of file `k`, `None` when
the file does not exist (a file holding JSON `null` also loads as `None`,
which is why contents may be `.pnone`). -/
def Store.load {κ : Type} [DecidableEq κ] (st : Store κ) (k : κ) : PyVal :=
  match st.lookup k with
  | some e => e.2
  | none => .pnone

/-- `utils.read_url`: GET with retries; `remote` is the (deterministic)
response text of the remote service, `none` when every attempt raises.
A body equal to `"Permission Denied"` is turned into `False` (`none`). -/
def read_url (remote : Option String) : Option String :=
  match remote with
  | some t => if t = "Permission Denied" then none else some t
  | none => none

/-- The three "not available" sentinel strings of
`utils.process_url_response` version 4 (route geometry). -/
def routeSentinels : List String :=
  ["File not available - please contact us.", "Permission Denied", "{}"]

/-- `{row['I']: row for row in rows}` (version-2 reindexing of
racelist/fixtures rows by their own identifier field). -/
def reindexByI : PyVal → PyVal
  | .plist rows =>
      .pdict (rows.map (fun r =>
        (match dictGetD r "I" with | .pstr s => s | _ => "", r)))
  | _ => .pdict []

/-- `str.splitlines` restricted to the `"\r\n"`-delimited responses the
points feed produces (see the comment at the call site in
`GmaxFeed.get_points`). -/
def splitlinesCRLF (t : String) : List String := t.splitOn "\r\n"

/-- `utils.process_url_response`: fetch `url`, decode according to
`version`, persist on success, and return the decoded payload.
`jl` embeds `json.loads` (stdlib, assumed total on the service's
responses). -/
def process_url_response {κ : Type} [DecidableEq κ] (jl : String → PyVal)
    (remote : Option String) (st : Store κ) (fname : κ) (now : Int)
    (version : Nat) : PyVal × Store κ :=
  match read_url remote with
  | none => (.pdict [], st)
  | some t =>
    if t = "" then (.pdict [], st)
    else if version = 1 then
      let data := jl t
      if truthy data then (data, st.insert fname now data) else (data, st)
    else if version = 2 then
      let data := reindexByI (jl t)
      (data, st.insert fname now data)
    else if version = 3 then
      let rows := (List.filter (fun r => decide (r.length > 5))
        (splitlinesCRLF t)).map jl
      if rows.isEmpty then (.plist [], st)
      else (.plist rows, st.insert fname now (.plist rows))
    else
      if routeSentinels.contains t then (.pdict [], st)
      else (.pstr t, st.insert fname now (.pstr t))

/-- `timedelta(days = 6)` in seconds. -/
def sixDays : Int := 6 * 86400

/-- Result of one fetch-or-cache resolver call: the returned Python value,
the number of `read_url` calls, the number of `load_file` calls, and the
entity store after the call. -/
structure RR (κ : Type) where
  payload : PyVal
  net : Nat
  reads : Nat
  store : Store κ

/-- `{'sc': sharecode, 'data': data}`, the uniform per-sharecode outcome. -/
def mkSc (sharecode : String) (data : PyVal) : PyVal :=
  .pdict [("sc", .pstr sharecode), ("data", data)]

/-- Tail of `GmaxFeed.get_race` from `if not offline:` (direct `read_url`,
reindex by `'I'`, no caching of the single race), with `data = {}` when the
cache branch did not run. Returns `data.get(sharecode) or False`. -/
def get_race_rest (jl : String → PyVal) (remote : Option String)
    (sharecode : String) (offline : Bool) (st : Store Int) (reads : Nat) :
    RR Int :=
  if !offline then
    let data := match read_url remote with
      | some t => if t ≠ "" then reindexByI (jl t) else .pdict []
      | none => .pdict []
    ⟨pyOr (dictGetD data sharecode) (.pbool false), 1, reads, st⟩
  else
    ⟨.pbool false, 0, reads, st⟩

/-- `GmaxFeed.get_race` over the racelist store (keyed by the day, derived
from `sharecode[2:10]` or the `date` argument): trust the cached day file
only when `not new and ((not new and mtime > date + 6 days) or offline)`;
otherwise query `racelist.ashx?Sharecode=` directly without caching. -/
def get_race (jl : String → PyVal) (st : Store Int) (remote : Option String)
    (sharecode : String) (date : Int) (new offline : Bool) : RR Int :=
  match st.lookup date with
  | some e =>
    if !new && ((!new && decide (date + sixDays < e.1)) || offline) then
      match e.2 with
      | .pnone => get_race_rest jl remote sharecode offline st 1
      | content => ⟨pyOr (dictGetD content sharecode) (.pbool false), 0, 1, st⟩
    else get_race_rest jl remote sharecode offline st 0
  | none => get_race_rest jl remote sharecode offline st 0

/-- `data.get(sharecode) or False` when a sharecode was passed to
`get_racelist`, else `data` itself. -/
def racelistFinish (sharecode : Option String) (data : PyVal) : PyVal :=
  match sharecode with
  | some s => pyOr (dictGetD data s) (.pbool false)
  | none => data

/-- Tail of `GmaxFeed.get_racelist` from `if not offline:`
(`process_url_response` version 2, caching the whole day file). -/
def get_racelist_rest (jl : String → PyVal) (st : Store Int)
    (remote : Option String) (date now : Int) (sharecode : Option String)
    (offline : Bool) (reads : Nat) : RR Int :=
  if !offline then
    let r := process_url_response jl remote st date now 2
    ⟨racelistFinish sharecode r.1, 1, reads, r.2⟩
  else
    ⟨racelistFinish sharecode (.pdict []), 0, reads, st⟩

/-- `GmaxFeed.get_racelist`: note that, unlike `get_race` and
`get_fixtures`, the cache branch is guarded only by `os.path.exists` — the
trust test is `(not new and mtime > limit_date) or offline`, with no outer
`not new`. -/
def get_racelist (jl : String → PyVal) (st : Store Int)
    (remote : Option String) (date now : Int) (sharecode : Option String)
    (new offline : Bool) : RR Int :=
  match st.lookup date with
  | some e =>
    if (!new && decide (date + sixDays < e.1)) || offline then
      match e.2 with
      | .pnone => get_racelist_rest jl st remote date now sharecode offline 1
      | content => ⟨racelistFinish (sharecode) content, 0, 1, st⟩
    else get_racelist_rest jl st remote date now sharecode offline 0
  | none => get_racelist_rest jl st remote date now sharecode offline 0

/-- Tail of `GmaxFeed.get_fixtures` from the download comment onward:
`data = process_url_response(..., version = 1) or False`, or the value
`data` already held when offline. -/
def get_fixtures_rest (jl : String → PyVal) (st : Store Int)
    (remote : Option String) (date now : Int) (offline : Bool) (reads : Nat)
    (data0 : PyVal) : RR Int :=
  if !offline then
    let r := process_url_response jl remote st date now 1
    ⟨pyOr r.1 (.pbool false), 1, reads, r.2⟩
  else
    ⟨data0, 0, reads, st⟩

/-- `GmaxFeed.get_fixtures` (with `no_return = False`): same outer
`os.path.exists(path) and not new` guard as `get_race`; `data` starts as
`[]` and becomes `None` if the cached file loads as `None`. -/
def get_fixtures (jl : String → PyVal) (st : Store Int)
    (remote : Option String) (date now : Int) (new offline : Bool) : RR Int :=
  match st.lookup date with
  | some e =>
    if !new && ((!new && decide (date + sixDays < e.1)) || offline) then
      match e.2 with
      | .pnone => get_fixtures_rest jl st remote date now offline 1 .pnone
      | content => ⟨content, 0, 1, st⟩
    else get_fixtures_rest jl st remote date now offline 0 (.plist [])
  | none => get_fixtures_rest jl st remote date now offline 0 (.plist [])

example : (get_fixtures (fun _ => .pnone) [] none 0 0 false true).payload
    = .plist [] := rfl

example :
    (get_racelist (fun _ => .pnone) [(0, (700000, PyVal.pdict [("a", .pint 1)]))]
      none 0 1 none true true).net = 0 := rfl

/-- The courses whose sectional gate labels are metric
(`postrace_feeds.METRIC_GATES`). -/
def METRIC_GATES : List String := ["65", "66", "67", "68", "31"]

/-- Tail of `GmaxFeed.get_points` from `if not offline:`
(`process_url_response` version 3, line-delimited records). -/
def get_points_rest (jl : String → PyVal) (st : Store String)
    (remote : Option String) (sharecode : String) (now : Int)
    (offline : Bool) (reads : Nat) (data0 : PyVal) : RR String :=
  if !offline then
    let r := process_url_response jl remote st sharecode now 3
    ⟨mkSc sharecode r.1, 1, reads, r.2⟩
  else
    ⟨mkSc sharecode data0, 0, reads, st⟩

/-- `GmaxFeed.get_points` (with `no_return = False`): any existing cache
entry is trusted regardless of age unless `new`. -/
def get_points (jl : String → PyVal) (st : Store String)
    (remote : Option String) (sharecode : String) (now : Int)
    (new offline : Bool) : RR String :=
  if !new then
    match st.load sharecode with
    | .pnone => get_points_rest jl st remote sharecode now offline 1 .pnone
    | data => ⟨mkSc sharecode data, 0, 1, st⟩
  else get_points_rest jl st remote sharecode now offline 0 .pnone

/-- Tail of the three sectionals resolvers from `if not offline:`
(`process_url_response` version 1, then the metric-gate relabelling on a
truthy payload).  `alter` embeds `utils.alter_sectionals_gate_label`,
whose float label formatting is external to this model. -/
def get_sectionals_rest (alter : PyVal → PyVal) (jl : String → PyVal)
    (st : Store String) (remote : Option String) (sharecode : String)
    (now : Int) (offline : Bool) (reads : Nat) (data0 : PyVal) : RR String :=
  let metric := METRIC_GATES.contains (sharecode.take 2)
  if !offline then
    let r := process_url_response jl remote st sharecode now 1
    let d := if truthy r.1 && metric then alter r.1 else r.1
    ⟨mkSc sharecode d, 1, reads, r.2⟩
  else
    let d := if truthy data0 && metric then alter data0 else data0
    ⟨mkSc sharecode d, 0, reads, st⟩

/-- `GmaxFeed.get_sectionals` (with `no_return = False`); also the body of
`get_sectionals_history` and of the licensed part of `get_sectionals_raw`,
which differ only in their store, URL and licence. -/
def get_sectionals (alter : PyVal → PyVal) (jl : String → PyVal)
    (st : Store String) (remote : Option String) (sharecode : String)
    (now : Int) (new offline : Bool) : RR String :=
  let metric := METRIC_GATES.contains (sharecode.take 2)
  if !new then
    match st.load sharecode with
    | .pnone => get_sectionals_rest alter jl st remote sharecode now offline 1 .pnone
    | data => ⟨mkSc sharecode (if metric then alter data else data), 0, 1, st⟩
  else get_sectionals_rest alter jl st remote sharecode now offline 0 .pnone

/-- `GmaxFeed.get_sectionals_raw`: returns immediately when the
`ALTLICENCE` environment variable is absent; otherwise behaves as
`get_sectionals` over the sectionals-raw store. -/
def get_sectionals_raw (altLicence : Option String) (alter : PyVal → PyVal)
    (jl : String → PyVal) (st : Store String) (remote : Option String)
    (sharecode : String) (now : Int) (new offline : Bool) : RR String :=
  match altLicence with
  | none => ⟨mkSc sharecode .pnone, 0, 0, st⟩
  | some _ => get_sectionals alter jl st remote sharecode now new offline

/-- `any([row.get("RX") for row in data])` in
`GmaxFeed.get_tracker_performance` (only ever applied to cached lists). -/
def anyRX : PyVal → Bool
  | .plist rows => rows.any (fun r => truthy (dictGetD r "RX"))
  | _ => false

/-- Tail of `GmaxFeed.get_tracker_performance` from `if not offline:`;
`data0` is whatever the cache branch left in `data`. -/
def get_performance_rest (jl : String → PyVal) (st : Store String)
    (remote : Option String) (sharecode : String) (now : Int)
    (offline : Bool) (reads : Nat) (data0 : PyVal) : RR String :=
  if !offline then
    let r := process_url_response jl remote st sharecode now 1
    ⟨mkSc sharecode r.1, 1, reads, r.2⟩
  else
    ⟨mkSc sharecode data0, 0, reads, st⟩

/-- `GmaxFeed.get_tracker_performance` (with `no_return = False`): a cached
file is only an immediate hit when some row has a truthy `"RX"`; otherwise
the loaded value stays in `data` and a refetch is attempted. -/
def get_tracker_performance (jl : String → PyVal) (st : Store String)
    (remote : Option String) (sharecode : String) (now : Int)
    (new offline : Bool) : RR String :=
  if !new then
    let data := st.load sharecode
    if (match data with | .pnone => false | _ => true) && anyRX data then
      ⟨mkSc sharecode data, 0, 1, st⟩
    else get_performance_rest jl st remote sharecode now offline 1 data
  else get_performance_rest jl st remote sharecode now offline 0 .pnone

/-- `pat` is a prefix of `text` (on character lists). -/
def charsPrefix : List Char → List Char → Bool
  | [], _ => true
  | _ :: _, [] => false
  | p :: ps, c :: cs => p == c && charsPrefix ps cs

/-- `pat` occurs contiguously in `text` (Python `pat in text` on strings). -/
def charsSub (pat : List Char) : List Char → Bool
  | [] => pat.isEmpty
  | c :: cs => charsPrefix pat (c :: cs) || charsSub pat cs

/-- `racetype.lower()` as a character list (`str.lower`, ASCII range). -/
def lowerChars (s : String) : List Char := s.data.map Char.toLower

/-- The jump gate of `GmaxFeed.get_obstacles`:
`any([x in racetype.lower() for x in ["hurdle", "chase", "nh flat"]])`. -/
def isJumpType (racetype : String) : Bool :=
  ["hurdle", "chase", "nh flat"].any (fun x => charsSub x.data (lowerChars racetype))

/-- Result of `GmaxFeed.get_obstacles`, with the network calls and store
reads split between the jumps store and the racelist store touched through
the nested `get_race`. -/
structure ObstaclesResult where
  payload : PyVal
  jumpsNet : Nat
  raceNet : Nat
  jumpsReads : Nat
  raceReads : Nat
  jumpsStore : Store String

/-- Lines 1166–1190 of `GmaxFeed.get_obstacles`: the ordinary
cache-then-fetch resolution over the jumps store, entered only once the
jump gate has passed (with `no_return = False`). -/
def obstacles_resolve (jl : String → PyVal) (jumpsSt : Store String)
    (remote : Option String) (sharecode : String) (now : Int)
    (new offline : Bool) (raceNet raceReads : Nat) : ObstaclesResult :=
  let rest : Nat → ObstaclesResult := fun jumpsReads =>
    if !offline then
      let r := process_url_response jl remote jumpsSt sharecode now 1
      ⟨mkSc sharecode r.1, 1, raceNet, jumpsReads, raceReads, r.2⟩
    else ⟨mkSc sharecode .pnone, 0, raceNet, jumpsReads, raceReads, jumpsSt⟩
  if !new then
    match jumpsSt.load sharecode with
    | .pnone => rest 1
    | data => ⟨mkSc sharecode data, 0, raceNet, 1, raceReads, jumpsSt⟩
  else rest 0

/-- `metadata["RaceType"]` read as a string (`get_obstacles` only meets
string-valued race types). -/
def raceTypeOf (metadata : PyVal) : String :=
  match dictGetD metadata "RaceType" with
  | .pstr s => s
  | _ => ""

/-- `GmaxFeed.get_obstacles`: resolve the race metadata
(`kwargs.get("metadata") or self.get_race(sharecode, offline = offline)`),
short-circuit to `{'sc': ..., 'data': None}` unless the metadata is truthy,
has a `"RaceType"` key and that race type contains a jump marker; otherwise
fall through to the ordinary jumps resolver. -/
def get_obstacles (jl : String → PyVal) (jumpsSt : Store String)
    (raceSt : Store Int) (remoteJumps remoteRace : Option String)
    (metadataArg : PyVal) (sharecode : String) (scDate now : Int)
    (new offline : Bool) : ObstaclesResult :=
  let mr : PyVal × Nat × Nat :=
    if truthy metadataArg then (metadataArg, 0, 0)
    else
      let r := get_race jl raceSt remoteRace sharecode scDate false offline
      (r.payload, r.net, r.reads)
  let metadata := mr.1
  if !truthy metadata || !dictHasKey metadata "RaceType"
      || !isJumpType (raceTypeOf metadata) then
    ⟨mkSc sharecode .pnone, 0, mr.2.1, 0, mr.2.2, jumpsSt⟩
  else
    obstacles_resolve jl jumpsSt remoteJumps sharecode now new offline
      mr.2.1 mr.2.2

/-- `{"course_code": ..., "data": ...}`, the outcome shape of `get_route`. -/
def mkRoute (course_code : String) (data : PyVal) : PyVal :=
  .pdict [("course_code", .pstr course_code), ("data", data)]

/-- `GmaxFeed.get_route` (with `no_return = False`): the route store is
keyed by `'Racecourse-{code}.kml'`, files are raw KML text
(`is_json = False`), fetches go through `process_url_response` version 4
(raw text unless a "not available" sentinel), and `output["data"]` starts
as `False`. `course_code` is taken after `str(...).zfill(2)`. -/
def get_route (jl : String → PyVal) (st : Store String)
    (remote : Option String) (course_code : String) (now : Int)
    (new offline : Bool) : RR String :=
  let fname := "Racecourse-" ++ course_code ++ ".kml"
  let rest : Nat → RR String := fun reads =>
    if !offline then
      let r := process_url_response jl remote st fname now 4
      ⟨mkRoute course_code r.1, 1, reads, r.2⟩
    else ⟨mkRoute course_code (.pbool false), 0, reads, st⟩
  if !new then
    match st.load fname with
    | .pnone => rest 1
    | data => ⟨mkRoute course_code data, 0, 1, st⟩
  else rest 0

example : isJumpType "Flat" = false := by decide
example : isJumpType "Chase" = true := by decide
example : isJumpType "Newcastle 2M4f NH Flat (AW)" = true := by decide
example : isJumpType "Hexham 2M48y Hurdle" = true := by decide

/-- One race's metadata record (`RaceRecord`), as consumed by
`RaceMetadata`: its own identifier `'I'` plus the fields the filter tests.
`PostTime` stays a string, to be parsed by `dateutil.parser.parse`. -/
structure RaceRecord where
  I : String
  Country : String
  Racecourse : String
  Published : Bool
  RaceType : String
  PostTime : String
deriving DecidableEq, Repr

/-- A `start_date`/`end_date` argument: a datetime (as an instant) or a
string to be parsed. -/
inductive DateArg : Type where
  | dstr : String → DateArg
  | ddt : Int → DateArg
deriving DecidableEq, Repr

/-- The seven predicate fields exactly as `set_filter` stores them and
`apply_filter` receives them as direct arguments (`None` = absent). -/
structure FilterArgs where
  countries : Option (List String) := none
  courses : Option (List String) := none
  course_codes : Option (List String) := none
  published : Option Bool := none
  start_date : Option DateArg := none
  end_date : Option DateArg := none
  race_types : Option (List String) := none
deriving DecidableEq, Repr

/-- Python truthiness of an optional list argument (`None` and `[]` are
falsy). -/
def truthyList (a : Option (List String)) : Bool :=
  match a with
  | none => false
  | some l => !l.isEmpty

/-- Python truthiness of the optional `published` argument (`None` and
`False` are falsy). -/
def truthyPub (a : Option Bool) : Bool :=
  match a with
  | none => false
  | some b => b

/-- Python truthiness of an optional date argument (`None` and `""` are
falsy; datetimes and non-empty strings are truthy). -/
def truthyDate (a : Option DateArg) : Bool :=
  match a with
  | none => false
  | some (.dstr s) => decide (s ≠ "")
  | some (.ddt _) => true

/-- `arg or stored` for list-valued predicate fields. -/
def orElseL (a b : Option (List String)) : Option (List String) :=
  if truthyList a then a else b

/-- `arg or stored` for the `published` field. -/
def orElseP (a b : Option Bool) : Option Bool :=
  if truthyPub a then a else b

/-- `arg or stored` for the date fields. -/
def orElseD (a b : Option DateArg) : Option DateArg :=
  if truthyDate a then a else b

/-- `utils.to_datetime(d, tz = dateutil.tz.UTC)` restricted to the
datetime/str/None inputs `apply_filter` feeds it; `parse` embeds
`dateutil.parser.parse` (external library, assumed total on the date
strings in use), and `astimezone` does not move the instant. -/
def to_datetime (parse : String → Int) : Option DateArg → Option Int
  | none => none
  | some (.dstr s) => some (parse s)
  | some (.ddt t) => some t

/-- The effective predicate `apply_filter` works with after merging direct
arguments with the stored filter and normalising the dates. -/
structure EffFilter where
  countries : Option (List String)
  courses : Option (List String)
  course_codes : Option (List String)
  published : Option Bool
  start_date : Option Int
  end_date : Option Int
  race_types : Option (List String)
deriving DecidableEq, Repr

/-- Lines 311–323 of `RaceMetadata.apply_filter`: each direct argument
falls back to the stored filter's value when falsy (`x or stored`), and
the date bounds go through `to_datetime(..., tz = UTC)`. -/
def mergeFilter (parse : String → Int) (args stored : FilterArgs) : EffFilter where
  countries := orElseL args.countries stored.countries
  courses := orElseL args.courses stored.courses
  course_codes := orElseL args.course_codes stored.course_codes
  published := orElseP args.published stored.published
  start_date := to_datetime parse (orElseD args.start_date stored.start_date)
  end_date := to_datetime parse (orElseD args.end_date stored.end_date)
  race_types := orElseL args.race_types stored.race_types

/-- `all([x is None for x in [countries, courses, course_codes, published,
start_date, end_date, race_types]])`. -/
def EffFilter.isAllNone (f : EffFilter) : Bool :=
  f.countries.isNone && f.courses.isNone && f.course_codes.isNone
    && f.published.isNone && f.start_date.isNone && f.end_date.isNone
    && f.race_types.isNone

/-- The per-record test of the `apply_filter` loop: one conjunct per
non-null field, in source order; `sc[:2]` is the record's course code and
`row['PostTime']` is parsed before the date bounds are checked. -/
def passesFilter (parse : String → Int) (f : EffFilter) (sc : String)
    (row : RaceRecord) : Bool :=
  (match f.race_types with
   | none => true
   | some l => l.contains row.RaceType) &&
  (match f.countries with
   | none => true
   | some l => l.contains row.Country) &&
  (match f.courses with
   | none => true
   | some l => l.contains row.Racecourse) &&
  (match f.course_codes with
   | none => true
   | some l => l.contains (sc.take 2)) &&
  (match f.published with
   | none => true
   | some p => row.Published == p) &&
  (match f.start_date with
   | none => true
   | some d => !decide (parse row.PostTime < d)) &&
  (match f.end_date with
   | none => true
   | some d => !decide (d < parse row.PostTime))

/-- Lines 324–351 of `RaceMetadata.apply_filter`: with an all-`None`
effective predicate the view becomes the data dict itself; otherwise the
view is rebuilt from `self._data`, keeping the records that survive every
`continue`. -/
def applyEff (parse : String → Int) (f : EffFilter)
    (data : List (String × RaceRecord)) : List (String × RaceRecord) :=
  if f.isAllNone then data
  else data.filter (fun kv => passesFilter parse f kv.1 kv.2)

/-- `self._data[row['I']] = row`: dict upsert keyed by the record's own
identifier (in-place update keeps the key's position; a fresh key is
appended in insertion order). -/
def upsertRecord (data : List (String × RaceRecord)) (row : RaceRecord) :
    List (String × RaceRecord) :=
  if data.any (fun kv => decide (kv.1 = row.I)) then
    data.map (fun kv => if kv.1 = row.I then (kv.1, row) else kv)
  else data ++ [(row.I, row)]

/-- The import loop of `RaceMetadata.import_data` over a list of records
(the dict branch iterates `data.values()` and is the same fold). -/
def importRows (data : List (String × RaceRecord)) (rows : List RaceRecord) :
    List (String × RaceRecord) :=
  rows.foldl upsertRecord data

/-- The `RaceMetadata` instance state: the full metadata dict `_data`, the
filtered view `_list`, and the stored filter `_filter`. -/
structure RM where
  _data : List (String × RaceRecord)
  _list : List (String × RaceRecord)
  _filter : FilterArgs
deriving Repr

/-- `RaceMetadata.clear`: `self._data = {}; self._list = self._data`. -/
def RM.clear (m : RM) : RM :=
  { m with _data := [], _list := [] }

/-- `RaceMetadata.__init__()` with no data: `clear()` then
`self._filter = {}` (an empty dict, whose `.get` is `None` on every key,
i.e. the all-`None` filter). -/
def RM.init : RM :=
  { _data := [], _list := [], _filter := {} }

/-- `RaceMetadata.import_data(data = rows)`: upsert every row by its own
`'I'`, then `self._list = self._data`. -/
def RM.import_data (m : RM) (rows : List RaceRecord) : RM :=
  let d := importRows m._data rows
  { m with _data := d, _list := d }

/-- `RaceMetadata.set_filter` of `src/gmaxfeed/feeds/postrace_feeds.py`:
stores the named arguments as the new filter.  The `opts` dict accepted by
the signature is ignored by the body (see `set_filter_legacy` for the
historical revision that consumed it). -/
def RM.set_filter (m : RM) (args : FilterArgs) (opts : List (String × PyVal)) :
    RM :=
  let _ := opts
  { m with _filter := args }

/-- `RaceMetadata.apply_filter` of `src/gmaxfeed/feeds/postrace_feeds.py`:
first import `data` when given (which re-aliases the view), merge direct
arguments with the stored filter, and rebuild the view. -/
def RM.apply_filter (parse : String → Int) (m : RM) (args : FilterArgs)
    (dataArg : Option (List RaceRecord)) : RM :=
  let m1 := match dataArg with
    | some rows => m.import_data rows
    | none => m
  let eff := mergeFilter parse args m1._filter
  { m1 with _list := applyEff parse eff m1._data }

/-- The operations a caller can perform on a `RaceMetadata` instance. -/
inductive RMOp : Type where
  | clear : RMOp
  | importData : List RaceRecord → RMOp
  | setFilter : FilterArgs → List (String × PyVal) → RMOp
  | applyFilter : FilterArgs → Option (List RaceRecord) → RMOp

/-- One `RaceMetadata` method call. -/
def RM.step (parse : String → Int) (m : RM) : RMOp → RM
  | .clear => m.clear
  | .importData rows => m.import_data rows
  | .setFilter args opts => m.set_filter args opts
  | .applyFilter args dataArg => m.apply_filter parse args dataArg

/-- A sequence of `RaceMetadata` method calls. -/
def RM.run (parse : String → Int) (m : RM) (ops : List RMOp) : RM :=
  ops.foldl (RM.step parse) m

/-- The recognised filter keys of the legacy `set_filter`
(`self._filter`'s keys right after the named arguments are stored). -/
def legacyFilterKeys : List String :=
  ["countries", "courses", "course_codes", "published", "start_date",
   "end_date", "race_types"]

/-- `type(opts[key]) not in [list, set, dict]` for the embedded values. -/
def isListSetDict : PyVal → Bool
  | .plist _ => true
  | .pdict _ => true
  | _ => false

/-- `self._filter[key] = v` on the legacy dict-valued filter. -/
def dictAssign (d : List (String × PyVal)) (k : String) (v : PyVal) :
    List (String × PyVal) :=
  if d.any (fun kv => decide (kv.1 = k)) then
    d.map (fun kv => if kv.1 = k then (kv.1, v) else kv)
  else d ++ [(k, v)]

/-- `RaceMetadata.set_filter` of the historical revision
`src/feeds/postrace_feeds.py` (lines 128–141): after storing the named
arguments, each `opts` entry with a recognised key is assigned into the
filter (scalars wrapped into a one-element list except for `published`),
and the first unrecognised key raises an `Exception`. -/
def set_filter_legacy (flt0 : List (String × PyVal))
    (opts : List (String × PyVal)) : Except String (List (String × PyVal)) :=
  opts.foldlM (fun f kv =>
    if legacyFilterKeys.contains kv.1 then
      let v := if kv.1 ≠ "published" && !isListSetDict kv.2
        then .plist [kv.2] else kv.2
      Except.ok (dictAssign f kv.1 v)
    else Except.error
      ("key " ++ kv.1 ++ " given to RaceMetadata instance.set_filter(), " ++
        "not recognised as valid option")) flt0

example :
    set_filter_legacy [] [("bad_key", .pint 1)] =
      Except.error ("key bad_key given to RaceMetadata instance." ++
        "set_filter(), not recognised as valid option") := rfl

/-- A process environment (`os.environ`): variable name ↦ value. -/
def EnvMap : Type := List (String × String)

/-- `os.environ.get(k)`. -/
def EnvMap.get (env : EnvMap) (k : String) : Option String :=
  (List.find? (fun kv => decide (kv.1 = k)) env).map (fun kv => kv.2)

/-- `os.environ[k] = v`. -/
def EnvMap.set (env : EnvMap) (k v : String) : EnvMap :=
  (k, v) :: List.filter (fun kv => !decide (kv.1 = k)) env

/-- `path or os.environ.get(VAR) or default` in the `set_*_path` methods
(Python `or`: an absent or empty string falls through). -/
def resolvePath (arg : Option String) (env : EnvMap) (envVar deflt : String) :
    String :=
  match arg with
  | some p => if p ≠ "" then p else
      (match env.get envVar with
       | some e => if e ≠ "" then e else deflt
       | none => deflt)
  | none =>
      match env.get envVar with
      | some e => if e ≠ "" then e else deflt
      | none => deflt

/-- The optional path arguments of `GmaxFeed.__init__`. -/
structure PathArgs where
  fixtures_path : Option String := none
  racelist_path : Option String := none
  sectionals_path : Option String := none
  gps_path : Option String := none
  route_path : Option String := none
  sectionals_history_path : Option String := none
  sectionals_raw_path : Option String := none
  jumps_path : Option String := none
  performance_path : Option String := none
deriving DecidableEq, Repr

/-- The constructed `GmaxFeed` object: the updated process environment and
the nine resolved cache directories (`_confirm_exists`'s `mkdir` side
effect is outside the model). -/
structure GmaxFeedState where
  env : EnvMap
  fixtures_path : String
  racelist_path : String
  sectionals_path : String
  gps_path : String
  route_path : String
  sectionals_history_path : String
  sectionals_raw_path : String
  jumps_path : String
  errors_path : String

/-- The error message raised by `GmaxFeed.__init__` without a licence. -/
def noLicenceMsg : String :=
  "No licence key set by GmaxFeed, pass licence = \"my_licence\" to " ++
  " constructor, or set GMAXLICENCE = \"my_licence\" as environment variable"

/-- `GmaxFeed.__init__`: the licence setter writes the explicit licence
into `os.environ['GMAXLICENCE']` (and leaves the environment alone when
`None`), the nine path setters run, and finally `if not self:` — i.e. when
`os.environ.get('GMAXLICENCE') is None` — an `Exception` is raised. -/
def GmaxFeed_init (licence : Option String) (paths : PathArgs)
    (env0 : EnvMap) : Except String GmaxFeedState :=
  let env := match licence with
    | some l => env0.set "GMAXLICENCE" l
    | none => env0
  let fs : GmaxFeedState :=
    { env := env
      fixtures_path := resolvePath paths.fixtures_path env "FIXTURES_PATH" "fixtures"
      racelist_path := resolvePath paths.racelist_path env "RACELIST_PATH" "racelist"
      sectionals_path := resolvePath paths.sectionals_path env "SEC_PATH" "sectionals"
      gps_path := resolvePath paths.gps_path env "GPS_PATH" "gpsData"
      route_path := resolvePath paths.route_path env "ROUTE_PATH" "routes"
      sectionals_history_path :=
        resolvePath paths.sectionals_history_path env "SEC_HIST_PATH" "sectionals-hist"
      sectionals_raw_path :=
        resolvePath paths.sectionals_raw_path env "SEC_RAW_PATH" "sectionals-raw"
      jumps_path := resolvePath paths.jumps_path env "JUMPS_PATH" "jumps"
      errors_path := resolvePath paths.performance_path env "PERFORMANCE_PATH" "tracker-errors" }
  match env.get "GMAXLICENCE" with
  | some _ => Except.ok fs
  | none => Except.error noLicenceMsg

/-- `utils.MAX_THREADS`. -/
def MAX_THREADS : Nat := 6

/-- `utils.apply_thread_pool` with the pool bound as an explicit parameter:
`threads = min(maxThreads, len(iterable))`; with more than one thread every
element is submitted to the pool in order and the futures' results are
collected in submission order (each future's value is `func x` — `func` is
pure in this model, so the gathered list is the in-order map); with at most
one thread the map is taken sequentially; an empty iterable yields `[]`. -/
def apply_thread_pool {α β : Type} (maxThreads : Nat) (func : α → β)
    (iterable : List α) : List β :=
  let threads := min maxThreads iterable.length
  if threads > 1 then iterable.map func
  else if !iterable.isEmpty then iterable.map func
  else []

/-- One dict-comprehension step of
`{row['sc']: row['data'] for row in result if row['data']}`. -/
def mergeRowStep (d : List (String × PyVal)) (row : PyVal) :
    List (String × PyVal) :=
  if truthy (dictGetD row "data") then
    dictAssign d (match dictGetD row "sc" with | .pstr s => s | _ => "")
      (dictGetD row "data")
  else d

/-- The result-merging dict comprehension of `GmaxFeed.get_data`. -/
def mergeRows (rows : List PyVal) : List (String × PyVal) :=
  rows.foldl mergeRowStep []

/-- One entity type's slice of `GmaxFeed.get_data` on a bare sharecode
list: dispatch the per-sharecode resolver (which returns
`{'sc': sc, 'data': resolve sc}`) through the thread pool, then keep
exactly the truthy payloads keyed by sharecode. -/
def get_data_label (maxThreads : Nat) (resolve : String → PyVal)
    (sharecodes : List String) : List (String × PyVal) :=
  mergeRows (apply_thread_pool maxThreads
    (fun sc => mkSc sc (resolve sc)) sharecodes)

/-- Association-list lookup on a merged result mapping. -/
def dictFind (d : List (String × PyVal)) (k : String) : Option PyVal :=
  (List.find? (fun kv => decide (kv.1 = k)) d).map (fun kv => kv.2)

example :
    get_data_label 6 (fun sc => if sc = "01x" then .plist [.pint 1] else .pnone)
      ["01x", "02y"] = [("01x", .plist [.pint 1])] := rfl

theorem store_lookup_nil {κ : Type} [DecidableEq κ] (k : κ) :
    Store.lookup ([] : Store κ) k = none := rfl

theorem store_load_nil {κ : Type} [DecidableEq κ] (k : κ) :
    Store.load ([] : Store κ) k = .pnone := rfl

theorem dictGetD_mkSc_data (sc : String) (d : PyVal) :
    dictGetD (mkSc sc d) "data" = d := rfl

theorem obstacles_offline_empty (jl : String → PyVal)
    (rj rr : Option String) (md : PyVal) (sc : String) (d now : Int)
    (new : Bool) :
    dictGetD (get_obstacles jl [] [] rj rr md sc d now new true).payload "data"
        = .pnone
    ∧ (get_obstacles jl [] [] rj rr md sc d now new true).jumpsNet = 0
    ∧ (get_obstacles jl [] [] rj rr md sc d now new true).raceNet = 0 := by
  unfold get_obstacles
  cases hmd : truthy md with
  | true =>
    simp only [hmd, if_pos]
    split
    · simp [dictGetD_mkSc_data]
    · unfold obstacles_resolve
      cases new <;> simp [store_load_nil, dictGetD_mkSc_data]
  | false =>
    have hrace : get_race jl [] rr sc d false true
        = ⟨.pbool false, 0, 0, []⟩ := rfl
    simp [hmd, hrace, truthy, dictGetD_mkSc_data, isJumpType, dictHasKey]

/-- C2: with `offline = true` and an empty Entity Store, the
fetch-or-cache operation of every entity type (fixtures, race/racelist at
both granularities, points, the three sectionals feeds, tracker
performance, obstacles and route geometry) returns an empty outcome — a
falsy payload or a `None` data field — and performs zero network calls.
(`get_sectionals` is also the body of `get_sectionals_history`, which
differs only in its store and URL.) -/
theorem C2_offline_empty_store (jl : String → PyVal) (alter : PyVal → PyVal)
    (remote : Option String) (sharecode course_code : String)
    (scOpt : Option String) (date now scDate : Int) (new : Bool)
    (metadataArg : PyVal) :
    (truthy (get_fixtures jl [] remote date now new true).payload = false
      ∧ (get_fixtures jl [] remote date now new true).net = 0)
  ∧ (truthy (get_race jl [] remote sharecode date new true).payload = false
      ∧ (get_race jl [] remote sharecode date new true).net = 0)
  ∧ (truthy (get_racelist jl [] remote date now scOpt new true).payload = false
      ∧ (get_racelist jl [] remote date now scOpt new true).net = 0)
  ∧ (dictGetD (get_points jl [] remote sharecode now new true).payload "data"
        = .pnone
      ∧ (get_points jl [] remote sharecode now new true).net = 0)
  ∧ (dictGetD (get_sectionals alter jl [] remote sharecode now new true).payload
        "data" = .pnone
      ∧ (get_sectionals alter jl [] remote sharecode now new true).net = 0)
  ∧ (∀ altLicence : Option String,
      dictGetD (get_sectionals_raw altLicence alter jl [] remote sharecode now
        new true).payload "data" = .pnone
      ∧ (get_sectionals_raw altLicence alter jl [] remote sharecode now
          new true).net = 0)
  ∧ (dictGetD (get_tracker_performance jl [] remote sharecode now new
        true).payload "data" = .pnone
      ∧ (get_tracker_performance jl [] remote sharecode now new true).net = 0)
  ∧ (dictGetD (get_obstacles jl [] [] remote remote metadataArg sharecode
        scDate now new true).payload "data" = .pnone
      ∧ (get_obstacles jl [] [] remote remote metadataArg sharecode scDate now
          new true).jumpsNet = 0
      ∧ (get_obstacles jl [] [] remote remote metadataArg sharecode scDate now
          new true).raceNet = 0)
  ∧ (truthy (dictGetD (get_route jl [] remote course_code now new
        true).payload "data") = false
      ∧ (get_route jl [] remote course_code now new true).net = 0) := by
  refine ⟨?_, ?_, ?_, ?_, ?_, ?_, ?_, ?_, ?_⟩
  · cases new <;>
      simp [get_fixtures, get_fixtures_rest, store_lookup_nil, truthy]
  · cases new <;>
      simp [get_race, get_race_rest, store_lookup_nil, truthy]
  · cases scOpt <;> cases new <;>
      simp [get_racelist, get_racelist_rest, store_lookup_nil, racelistFinish,
        truthy, pyOr, dictGetD]
  · cases new <;>
      simp [get_points, get_points_rest, store_load_nil, dictGetD_mkSc_data]
  · cases new <;>
      simp [get_sectionals, get_sectionals_rest, store_load_nil, truthy,
        dictGetD_mkSc_data]
  · intro altLicence
    cases altLicence <;> cases new <;>
      simp [get_sectionals_raw, get_sectionals, get_sectionals_rest,
        store_load_nil, truthy, dictGetD_mkSc_data]
  · cases new <;>
      simp [get_tracker_performance, get_performance_rest, store_load_nil,
        anyRX, dictGetD_mkSc_data]
  · exact obstacles_offline_empty jl remote remote metadataArg sharecode
      scDate now new
  · cases new <;>
      simp [get_route, store_load_nil, mkRoute, dictGetD, truthy]


theorem get_racelist_eq (jl : String → PyVal) (st : Store Int)
    (remote : Option String) (date now mtime : Int) (content : PyVal)
    (scOpt : Option String) (new offline : Bool)
    (hlk : st.lookup date = some (mtime, content)) (hc : content ≠ .pnone) :
    get_racelist jl st remote date now scOpt new offline =
      if ((!new && decide (date + sixDays < mtime)) || offline) = true then
        ⟨racelistFinish scOpt content, 0, 1, st⟩
      else get_racelist_rest jl st remote date now scOpt offline 0 := by
  unfold get_racelist
  rw [hlk]
  dsimp only
  by_cases hcond : ((!new && decide (date + sixDays < mtime)) || offline) = true
  · rw [if_pos hcond, if_pos hcond]
    cases content with
    | pnone => exact absurd rfl hc
    | pbool b => rfl
    | pint n => rfl
    | pstr s => rfl
    | plist l => rfl
    | pdict l => rfl
  · rw [if_neg hcond, if_neg hcond]

theorem get_race_eq (jl : String → PyVal) (st : Store Int)
    (remote : Option String) (date mtime : Int) (content : PyVal)
    (sharecode : String) (new offline : Bool)
    (hlk : st.lookup date = some (mtime, content)) (hc : content ≠ .pnone) :
    get_race jl st remote sharecode date new offline =
      if (!new && ((!new && decide (date + sixDays < mtime)) || offline))
          = true then
        ⟨pyOr (dictGetD content sharecode) (.pbool false), 0, 1, st⟩
      else get_race_rest jl remote sharecode offline st 0 := by
  unfold get_race
  rw [hlk]
  dsimp only
  by_cases hcond : (!new && ((!new && decide (date + sixDays < mtime))
      || offline)) = true
  · rw [if_pos hcond, if_pos hcond]
    cases content with
    | pnone => exact absurd rfl hc
    | pbool b => rfl
    | pint n => rfl
    | pstr s => rfl
    | plist l => rfl
    | pdict l => rfl
  · rw [if_neg hcond, if_neg hcond]

theorem get_fixtures_eq (jl : String → PyVal) (st : Store Int)
    (remote : Option String) (date now mtime : Int) (content : PyVal)
    (new offline : Bool)
    (hlk : st.lookup date = some (mtime, content)) (hc : content ≠ .pnone) :
    get_fixtures jl st remote date now new offline =
      if (!new && ((!new && decide (date + sixDays < mtime)) || offline))
          = true then
        ⟨content, 0, 1, st⟩
      else get_fixtures_rest jl st remote date now offline 0 (.plist []) := by
  unfold get_fixtures
  rw [hlk]
  dsimp only
  by_cases hcond : (!new && ((!new && decide (date + sixDays < mtime))
      || offline)) = true
  · rw [if_pos hcond, if_pos hcond]
    cases content with
    | pnone => exact absurd rfl hc
    | pbool b => rfl
    | pint n => rfl
    | pstr s => rfl
    | plist l => rfl
    | pdict l => rfl
  · rw [if_neg hcond, if_neg hcond]

theorem store_lookup_singleton {κ : Type} [DecidableEq κ] (k : κ)
    (v : Int × PyVal) : Store.lookup [(k, v)] k = some v := by
  simp [Store.lookup, List.find?]

/-- C1 counterexample: for the racelist entity the claimed "iff" fails.
With `force_new = true`, `offline = true` and a cached day file (day 0,
mtime 0, one race), `get_racelist` returns the cached copy with zero
network calls, although the claim's trust condition — `force_new` is
false AND (`offline` is true OR `mtime > date + 6 days`) — evaluates to
false here (`get_racelist`'s cache branch lacks the outer `not new` guard
that `get_race` and `get_fixtures` have). -/
theorem C1_counterexample :
    ((get_racelist (fun _ => .pnone)
        [(0, (0, PyVal.pdict [("06X", PyVal.pdict [("I", .pstr "06X")])]))]
        none 0 0 none true true).payload
      = PyVal.pdict [("06X", PyVal.pdict [("I", .pstr "06X")])]
    ∧ (get_racelist (fun _ => .pnone)
        [(0, (0, PyVal.pdict [("06X", PyVal.pdict [("I", .pstr "06X")])]))]
        none 0 0 none true true).net = 0)
    ∧ (!true && (true || decide ((0 : Int) + sixDays < 0))) = false := by
  exact ⟨⟨rfl, rfl⟩, rfl⟩

/-- C1 (amended): with a loadable cached day file of mtime `mtime` for
reference date `date`:
* `get_race` and `get_fixtures` trust the cache (zero network calls, one
  store read, cached payload, store unchanged) iff `force_new` is false
  AND (`offline` is true OR `mtime > date + 6 days`) — the claim as
  stated;
* `get_racelist` instead trusts the cache iff (`force_new` is false AND
  `mtime > date + 6 days`) OR `offline` is true, so `offline` returns the
  cache even under `force_new`;
* the 6-day boundary is exclusive: online and non-forced, an mtime of
  exactly `date + 6 days` triggers a fetch while `date + 6 days + 1`
  second is trusted. -/
theorem C1_amended_staleness (jl : String → PyVal) (st : Store Int)
    (remote : Option String) (date now mtime : Int) (content : PyVal)
    (scOpt : Option String) (sharecode : String) (new offline : Bool)
    (hlk : st.lookup date = some (mtime, content)) (hc : content ≠ .pnone) :
    (((get_racelist jl st remote date now scOpt new offline).net = 0
        ∧ (get_racelist jl st remote date now scOpt new offline).reads = 1)
      ↔ ((!new && decide (date + sixDays < mtime)) || offline) = true)
    ∧ (((!new && decide (date + sixDays < mtime)) || offline) = true →
        get_racelist jl st remote date now scOpt new offline
          = ⟨racelistFinish scOpt content, 0, 1, st⟩)
    ∧ (((get_race jl st remote sharecode date new offline).net = 0
        ∧ (get_race jl st remote sharecode date new offline).reads = 1)
      ↔ (!new && (offline || decide (date + sixDays < mtime))) = true)
    ∧ ((!new && (offline || decide (date + sixDays < mtime))) = true →
        get_race jl st remote sharecode date new offline
          = ⟨pyOr (dictGetD content sharecode) (.pbool false), 0, 1, st⟩)
    ∧ (((get_fixtures jl st remote date now new offline).net = 0
        ∧ (get_fixtures jl st remote date now new offline).reads = 1)
      ↔ (!new && (offline || decide (date + sixDays < mtime))) = true)
    ∧ ((!new && (offline || decide (date + sixDays < mtime))) = true →
        get_fixtures jl st remote date now new offline = ⟨content, 0, 1, st⟩)
    ∧ (get_racelist jl [(date, (date + sixDays, content))] remote date now
        scOpt false false).net = 1
    ∧ (get_racelist jl [(date, (date + sixDays + 1, content))] remote date now
        scOpt false false)
        = ⟨racelistFinish scOpt content, 0, 1,
            [(date, (date + sixDays + 1, content))]⟩ := by
  refine ⟨?_, ?_, ?_, ?_, ?_, ?_, ?_, ?_⟩
  · rw [get_racelist_eq jl st remote date now mtime content scOpt new offline
      hlk hc]
    cases hd : decide (date + sixDays < mtime) <;> cases new <;>
      cases offline <;> simp [get_racelist_rest]
  · intro hcond
    rw [get_racelist_eq jl st remote date now mtime content scOpt new offline
      hlk hc, if_pos hcond]
  · rw [get_race_eq jl st remote date mtime content sharecode new offline
      hlk hc]
    cases hd : decide (date + sixDays < mtime) <;> cases new <;>
      cases offline <;> simp [get_race_rest]
  · intro hcond
    have hcond2 : (!new && ((!new && decide (date + sixDays < mtime))
        || offline)) = true := by
      cases new <;> cases offline <;> simp_all
    rw [get_race_eq jl st remote date mtime content sharecode new offline
      hlk hc, if_pos hcond2]
  · rw [get_fixtures_eq jl st remote date now mtime content new offline
      hlk hc]
    cases hd : decide (date + sixDays < mtime) <;> cases new <;>
      cases offline <;> simp [get_fixtures_rest]
  · intro hcond
    have hcond2 : (!new && ((!new && decide (date + sixDays < mtime))
        || offline)) = true := by
      cases new <;> cases offline <;> simp_all
    rw [get_fixtures_eq jl st remote date now mtime content new offline
      hlk hc, if_pos hcond2]
  · rw [get_racelist_eq jl _ remote date now (date + sixDays) content scOpt
      false false (store_lookup_singleton date (date + sixDays, content)) hc]
    simp [get_racelist_rest]
  · rw [get_racelist_eq jl _ remote date now (date + sixDays + 1) content scOpt
      false false (store_lookup_singleton date (date + sixDays + 1, content)) hc]
    simp [lt_add_one]

/-- Witness for `C1_amended_staleness` at a concrete one-day store. -/
theorem C1_amended_staleness_witness :
    Store.lookup [((0 : Int), ((700000 : Int), PyVal.pdict [("a", .pint 1)]))] 0
        = some (700000, PyVal.pdict [("a", .pint 1)])
    ∧ PyVal.pdict [("a", .pint 1)] ≠ PyVal.pnone
    ∧ (((get_racelist (fun _ => .pnone)
          [((0 : Int), ((700000 : Int), PyVal.pdict [("a", .pint 1)]))]
          none 0 0 none false false).net = 0
        ∧ (get_racelist (fun _ => .pnone)
          [((0 : Int), ((700000 : Int), PyVal.pdict [("a", .pint 1)]))]
          none 0 0 none false false).reads = 1)
      ↔ ((!false && decide ((0 : Int) + sixDays < 700000)) || false) = true) := by
  refine ⟨rfl, by simp, ?_⟩
  exact (C1_amended_staleness (fun _ => .pnone)
    [((0 : Int), ((700000 : Int), PyVal.pdict [("a", .pint 1)]))]
    none 0 0 700000 (PyVal.pdict [("a", .pint 1)]) none "06X" false false
    rfl (by simp)).1

theorem process_v4_sentinel {κ : Type} [DecidableEq κ] (jl : String → PyVal)
    (st : Store κ) (fname : κ) (now : Int) (s : String)
    (hs : s ∈ routeSentinels) :
    process_url_response jl (some s) st fname now 4 = (.pdict [], st) := by
  fin_cases hs <;> rfl

/-- C4: when the remote response of a route-geometry fetch equals one of
the "not available" sentinel strings, nothing is written to the route
store and the call's `data` outcome is falsy (`{}` — or `False` for the
`"Permission Denied"` sentinel, filtered already inside `read_url`); a
subsequent call for the same course again finds no cache entry and again
returns an empty outcome, having left the store unchanged both times. -/
theorem C4_route_sentinel (jl : String → PyVal) (st : Store String)
    (course_code : String) (now1 now2 : Int) (s : String) (new1 new2 : Bool)
    (hs : s ∈ routeSentinels)
    (hmiss : st.lookup ("Racecourse-" ++ course_code ++ ".kml") = none) :
    (get_route jl st (some s) course_code now1 new1 false).store = st
    ∧ truthy (dictGetD
        (get_route jl st (some s) course_code now1 new1 false).payload "data")
        = false
    ∧ (get_route jl st (some s) course_code now1 new1 false).net = 1
    ∧ (get_route jl
        (get_route jl st (some s) course_code now1 new1 false).store
        (some s) course_code now2 new2 false).store = st
    ∧ truthy (dictGetD (get_route jl
        (get_route jl st (some s) course_code now1 new1 false).store
        (some s) course_code now2 new2 false).payload "data") = false := by
  have hload : st.load ("Racecourse-" ++ course_code ++ ".kml") = .pnone := by
    simp [Store.load, hmiss]
  cases new1 <;> cases new2 <;>
    simp [get_route, hload, process_v4_sentinel jl st _ _ s hs, mkRoute,
      dictGetD, truthy]

/-- Witness for `C4_route_sentinel`: empty route store, the
"File not available" sentinel response, course code `"14"`. -/
theorem C4_route_sentinel_witness :
    ("File not available - please contact us." ∈ routeSentinels
    ∧ Store.lookup ([] : Store String) ("Racecourse-" ++ "14" ++ ".kml") = none)
    ∧ (get_route (fun _ => .pnone) []
        (some "File not available - please contact us.") "14" 5 false
        false).store = [] := by
  refine ⟨⟨by simp [routeSentinels], rfl⟩, ?_⟩
  exact (C4_route_sentinel (fun _ => .pnone) [] "14" 5 7
    "File not available - please contact us." false false
    (by simp [routeSentinels]) rfl).1

/-- C3 counterexample: the non-jump short-circuit is not free of Entity
Store lookups.  With no `metadata` kwarg, a cached (trusted) racelist day
file holding race `"01X"` with race type `"Flat"`, `get_obstacles`
returns the empty outcome but performs one racelist store read on the way
(`get_race` resolves the metadata), contradicting "without any Entity
Store lookup". -/
theorem C3_counterexample :
    dictGetD (get_obstacles (fun _ => .pnone) []
        [(0, (700000, PyVal.pdict [("01X", PyVal.pdict
          [("I", .pstr "01X"), ("RaceType", .pstr "Flat")])]))]
        none none .pnone "01X" 0 0 false false).payload "data" = .pnone
    ∧ (get_obstacles (fun _ => .pnone) []
        [(0, (700000, PyVal.pdict [("01X", PyVal.pdict
          [("I", .pstr "01X"), ("RaceType", .pstr "Flat")])]))]
        none none .pnone "01X" 0 0 false false).raceReads = 1 := by
  exact ⟨rfl, rfl⟩

/-- C3 (amended): the obstacles gate never touches the *jumps* entity
store or the jumps feed, but resolving the gating metadata may read (and,
when stale, refetch) the *racelist* entity:
* with caller-supplied truthy metadata whose race type is not a jump
  type, the request is an immediate empty outcome with zero store lookups
  and zero network calls of any kind;
* with no metadata supplied, a failed gate still guarantees an empty
  outcome with zero jumps-store lookups and zero jumps network calls —
  the racelist cost is exactly that of the nested `get_race`;
* when the race type is a jump type (e.g. `"Chase"`, while `"Flat"` is
  not), the request proceeds through the ordinary cache-then-fetch jumps
  resolver `obstacles_resolve`. -/
theorem C3_amended_obstacles_gate (jl : String → PyVal)
    (jumpsSt : Store String) (raceSt : Store Int)
    (remoteJumps remoteRace : Option String) (md : PyVal) (sharecode : String)
    (scDate now : Int) (new offline : Bool) :
    (truthy md = true →
      isJumpType (raceTypeOf md) = false →
      get_obstacles jl jumpsSt raceSt remoteJumps remoteRace md sharecode
          scDate now new offline
        = ⟨mkSc sharecode .pnone, 0, 0, 0, 0, jumpsSt⟩)
  ∧ (truthy (get_race jl raceSt remoteRace sharecode scDate false
        offline).payload = false
      ∨ isJumpType (raceTypeOf (get_race jl raceSt remoteRace sharecode scDate
          false offline).payload) = false →
      get_obstacles jl jumpsSt raceSt remoteJumps remoteRace .pnone sharecode
          scDate now new offline
        = ⟨mkSc sharecode .pnone, 0,
            (get_race jl raceSt remoteRace sharecode scDate false offline).net,
            0,
            (get_race jl raceSt remoteRace sharecode scDate false
              offline).reads, jumpsSt⟩)
  ∧ (truthy md = true →
      dictHasKey md "RaceType" = true →
      isJumpType (raceTypeOf md) = true →
      get_obstacles jl jumpsSt raceSt remoteJumps remoteRace md sharecode
          scDate now new offline
        = obstacles_resolve jl jumpsSt remoteJumps sharecode now new offline
            0 0)
  ∧ isJumpType "Flat" = false ∧ isJumpType "Chase" = true := by
  refine ⟨?_, ?_, ?_, by decide, by decide⟩
  · intro hmd hjump
    unfold get_obstacles
    simp [hmd, hjump]
  · intro hfail
    unfold get_obstacles
    simp only [show truthy PyVal.pnone = false from rfl,
      Bool.false_eq_true, if_false]
    rcases hfail with hfail | hfail
    · rw [if_pos (by simp [hfail])]
    · rw [if_pos (by simp [hfail])]
  · intro hmd hkey hjump
    unfold get_obstacles
    simp [hmd, hkey, hjump]

/-- Witness for `C3_amended_obstacles_gate`: caller-supplied Flat
metadata short-circuits with zero lookups; Chase metadata proceeds to the
resolver. -/
theorem C3_amended_obstacles_gate_witness :
    get_obstacles (fun _ => .pnone) [] [] none none
        (PyVal.pdict [("RaceType", .pstr "Flat")]) "01X" 0 0 false false
      = ⟨mkSc "01X" .pnone, 0, 0, 0, 0, []⟩
    ∧ get_obstacles (fun _ => .pnone) [] [] none none
        (PyVal.pdict [("RaceType", .pstr "Chase")]) "01X" 0 0 false false
      = obstacles_resolve (fun _ => .pnone) [] none "01X" 0 false false 0 0 := by
  constructor
  · exact (C3_amended_obstacles_gate (fun _ => .pnone) [] [] none none
      (PyVal.pdict [("RaceType", .pstr "Flat")]) "01X" 0 0 false false).1
      (by decide) (by decide)
  · exact (C3_amended_obstacles_gate (fun _ => .pnone) [] [] none none
      (PyVal.pdict [("RaceType", .pstr "Chase")]) "01X" 0 0 false
      false).2.2.1 (by decide) (by decide) (by decide)

theorem passes_of_allNone (parse : String → Int) (f : EffFilter)
    (h : f.isAllNone = true) (sc : String) (row : RaceRecord) :
    passesFilter parse f sc row = true := by
  unfold EffFilter.isAllNone at h
  simp only [Bool.and_eq_true, and_assoc, Option.isNone_iff_eq_none] at h
  obtain ⟨h1, h2, h3, h4, h5, h6, h7⟩ := h
  simp [passesFilter, h1, h2, h3, h4, h5, h6, h7]

theorem applyEff_eq_filter (parse : String → Int) (f : EffFilter)
    (data : List (String × RaceRecord)) :
    applyEff parse f data
      = data.filter (fun kv => passesFilter parse f kv.1 kv.2) := by
  unfold applyEff
  split
  · rename_i h
    exact (List.filter_eq_self.mpr
      (fun kv _ => passes_of_allNone parse f h kv.1 kv.2)).symm
  · rfl

theorem length_filter_mono {α : Type} (l : List α) (p q : α → Bool)
    (h : ∀ a ∈ l, p a = true → q a = true) :
    (l.filter p).length ≤ (l.filter q).length := by
  induction l with
  | nil => simp
  | cons a t ih =>
    have ht : ∀ x ∈ t, p x = true → q x = true :=
      fun x hx => h x (List.mem_cons_of_mem a hx)
    cases hp : p a
    · cases hq : q a
      · simpa [List.filter_cons, hp, hq] using ih ht
      · simpa [List.filter_cons, hp, hq] using Nat.le_succ_of_le (ih ht)
    · have hq : q a = true := h a (List.mem_cons_self a t) hp
      simpa [List.filter_cons, hp, hq] using Nat.succ_le_succ (ih ht)

theorem passesFilter_mono (parse : String → Int) (f g : EffFilter)
    (sc : String) (row : RaceRecord)
    (h1 : f.race_types = none ∨ g.race_types = f.race_types)
    (h2 : f.countries = none ∨ g.countries = f.countries)
    (h3 : f.courses = none ∨ g.courses = f.courses)
    (h4 : f.course_codes = none ∨ g.course_codes = f.course_codes)
    (h5 : f.published = none ∨ g.published = f.published)
    (h6 : f.start_date = none ∨ g.start_date = f.start_date)
    (h7 : f.end_date = none ∨ g.end_date = f.end_date)
    (hp : passesFilter parse g sc row = true) :
    passesFilter parse f sc row = true := by
  unfold passesFilter at hp ⊢
  simp only [Bool.and_eq_true, and_assoc] at hp ⊢
  obtain ⟨p1, p2, p3, p4, p5, p6, p7⟩ := hp
  refine ⟨?_, ?_, ?_, ?_, ?_, ?_, ?_⟩
  · rcases h1 with h | h
    · simp [h]
    · rw [← h]; exact p1
  · rcases h2 with h | h
    · simp [h]
    · rw [← h]; exact p2
  · rcases h3 with h | h
    · simp [h]
    · rw [← h]; exact p3
  · rcases h4 with h | h
    · simp [h]
    · rw [← h]; exact p4
  · rcases h5 with h | h
    · simp [h]
    · rw [← h]; exact p5
  · rcases h6 with h | h
    · simp [h]
    · rw [← h]; exact p6
  · rcases h7 with h | h
    · simp [h]
    · rw [← h]; exact p7

/-- C5: `apply_filter` recomputes the view from the full (post-import)
metadata set, keeping exactly the records that pass every non-null field
of the merged predicate — the fields are ANDed and a record's course code
is its key's first two characters, all inside `passesFilter` — and
strengthening an effective predicate by filling any previously-null
fields (`g` agrees with `f` wherever `f` is non-null) can only shrink or
preserve the view's size. -/
theorem C5_apply_filter_conjunction (parse : String → Int) (m : RM)
    (args : FilterArgs) (dataArg : Option (List RaceRecord))
    (f g : EffFilter) (data : List (String × RaceRecord))
    (h1 : f.race_types = none ∨ g.race_types = f.race_types)
    (h2 : f.countries = none ∨ g.countries = f.countries)
    (h3 : f.courses = none ∨ g.courses = f.courses)
    (h4 : f.course_codes = none ∨ g.course_codes = f.course_codes)
    (h5 : f.published = none ∨ g.published = f.published)
    (h6 : f.start_date = none ∨ g.start_date = f.start_date)
    (h7 : f.end_date = none ∨ g.end_date = f.end_date) :
    ((RM.apply_filter parse m args dataArg)._list
      = (RM.apply_filter parse m args dataArg)._data.filter
          (fun kv => passesFilter parse (mergeFilter parse args m._filter)
            kv.1 kv.2))
    ∧ (applyEff parse g data).length ≤ (applyEff parse f data).length := by
  constructor
  · cases dataArg with
    | none => exact applyEff_eq_filter parse _ m._data
    | some rows => exact applyEff_eq_filter parse _ (importRows m._data rows)
  · rw [applyEff_eq_filter, applyEff_eq_filter]
    exact length_filter_mono data _ _
      (fun kv _ hp => passesFilter_mono parse f g kv.1 kv.2
        h1 h2 h3 h4 h5 h6 h7 hp)

/-- Witness for `C5_apply_filter_conjunction`: one GB record, an effective
country filter `g` strengthening the empty filter `f`. -/
theorem C5_apply_filter_conjunction_witness :
    ((RM.apply_filter (fun _ => 0) RM.init {}
        (some [⟨"01Xa", "GB", "Ascot", true, "Flat", "t"⟩]))._list
      = (RM.apply_filter (fun _ => 0) RM.init {}
          (some [⟨"01Xa", "GB", "Ascot", true, "Flat", "t"⟩]))._data.filter
          (fun kv => passesFilter (fun _ => 0)
            (mergeFilter (fun _ => 0) {} RM.init._filter) kv.1 kv.2))
    ∧ (applyEff (fun _ => 0)
        ⟨some ["GB"], none, none, none, none, none, none⟩
        [("01Xa", ⟨"01Xa", "GB", "Ascot", true, "Flat", "t"⟩)]).length
      ≤ (applyEff (fun _ => 0) ⟨none, none, none, none, none, none, none⟩
        [("01Xa", ⟨"01Xa", "GB", "Ascot", true, "Flat", "t"⟩)]).length := by
  exact C5_apply_filter_conjunction (fun _ => 0) RM.init {}
    (some [⟨"01Xa", "GB", "Ascot", true, "Flat", "t"⟩])
    ⟨none, none, none, none, none, none, none⟩
    ⟨some ["GB"], none, none, none, none, none, none⟩
    [("01Xa", ⟨"01Xa", "GB", "Ascot", true, "Flat", "t"⟩)]
    (Or.inl rfl) (Or.inl rfl) (Or.inl rfl) (Or.inl rfl) (Or.inl rfl)
    (Or.inl rfl) (Or.inl rfl)

theorem import_data_list_eq_data (m : RM) (rows : List RaceRecord) :
    (m.import_data rows)._list = (m.import_data rows)._data := rfl

theorem apply_filter_list_subset (parse : String → Int) (m : RM)
    (args : FilterArgs) (dataArg : Option (List RaceRecord)) :
    ∀ kv ∈ (RM.apply_filter parse m args dataArg)._list,
      kv ∈ (RM.apply_filter parse m args dataArg)._data := by
  intro kv hkv
  cases dataArg with
  | none =>
    rw [show (RM.apply_filter parse m args none)._list
        = applyEff parse (mergeFilter parse args m._filter) m._data from rfl,
      applyEff_eq_filter] at hkv
    exact List.mem_of_mem_filter hkv
  | some rows =>
    rw [show (RM.apply_filter parse m args (some rows))._list
        = applyEff parse (mergeFilter parse args m._filter)
            (importRows m._data rows) from rfl,
      applyEff_eq_filter] at hkv
    exact List.mem_of_mem_filter hkv

theorem step_preserves_subset (parse : String → Int) (m : RM) (op : RMOp)
    (h : ∀ kv ∈ m._list, kv ∈ m._data) :
    ∀ kv ∈ (m.step parse op)._list, kv ∈ (m.step parse op)._data := by
  cases op with
  | clear => intro kv hkv; exact hkv
  | importData rows => intro kv hkv; exact hkv
  | setFilter args opts => intro kv hkv; exact h kv hkv
  | applyFilter args dataArg => exact apply_filter_list_subset parse m args dataArg

theorem run_preserves_subset (parse : String → Int) (ops : List RMOp) :
    ∀ m : RM, (∀ kv ∈ m._list, kv ∈ m._data) →
      ∀ kv ∈ (m.run parse ops)._list, kv ∈ (m.run parse ops)._data := by
  induction ops with
  | nil => intro m h; exact h
  | cons op t ih =>
    intro m h
    exact ih (m.step parse op) (step_preserves_subset parse m op h)

/-- C6: over every sequence of Metadata Filter operations starting from a
fresh instance, the filtered view is a subset of the full metadata set —
each view entry appears in the set with the identical record; re-applying
a predicate recomputes the view from the full set only (a state with any
other previous view produces the same new view); and when the merged
predicate is all-null, `apply_filter` makes the view the data mapping
itself (`self._list = self._data`). -/
theorem C6_view_subset_invariant (parse : String → Int) (ops : List RMOp)
    (m : RM) (lv : List (String × RaceRecord)) (args : FilterArgs)
    (dataArg : Option (List RaceRecord)) :
    (∀ kv ∈ (RM.init.run parse ops)._list, kv ∈ (RM.init.run parse ops)._data)
    ∧ (RM.apply_filter parse { m with _list := lv } args dataArg)._list
        = (RM.apply_filter parse m args dataArg)._list
    ∧ ((mergeFilter parse args m._filter).isAllNone = true →
        (RM.apply_filter parse m args dataArg)._list
          = (RM.apply_filter parse m args dataArg)._data) := by
  refine ⟨?_, ?_, ?_⟩
  · exact run_preserves_subset parse ops RM.init (fun kv hkv => hkv)
  · cases dataArg <;> rfl
  · intro hall
    cases dataArg with
    | none =>
      show applyEff parse (mergeFilter parse args m._filter) m._data = m._data
      unfold applyEff
      rw [if_pos hall]
    | some rows =>
      show applyEff parse (mergeFilter parse args m._filter)
          (importRows m._data rows) = importRows m._data rows
      unfold applyEff
      rw [if_pos hall]

/-- Witness for `C6_view_subset_invariant`: a two-operation run (import
then country filter), plus the all-null aliasing of the empty filter. -/
theorem C6_view_subset_invariant_witness :
    (∀ kv ∈ (RM.init.run (fun _ => 0)
        [RMOp.importData [⟨"01Xa", "GB", "Ascot", true, "Flat", "t"⟩],
         RMOp.applyFilter { countries := some ["GB"] } none])._list,
      kv ∈ (RM.init.run (fun _ => 0)
        [RMOp.importData [⟨"01Xa", "GB", "Ascot", true, "Flat", "t"⟩],
         RMOp.applyFilter { countries := some ["GB"] } none])._data)
    ∧ ((mergeFilter (fun _ => 0) {} RM.init._filter).isAllNone = true
        ∧ (RM.apply_filter (fun _ => 0) RM.init {} none)._list
            = (RM.apply_filter (fun _ => 0) RM.init {} none)._data) := by
  refine ⟨?_, ?_, ?_⟩
  · exact (C6_view_subset_invariant (fun _ => 0)
      [RMOp.importData [⟨"01Xa", "GB", "Ascot", true, "Flat", "t"⟩],
       RMOp.applyFilter { countries := some ["GB"] } none]
      RM.init [] {} none).1
  · rfl
  · exact (C6_view_subset_invariant (fun _ => 0) [] RM.init [] {} none).2.2 rfl

/-- C10: in `apply_filter`, every directly passed predicate argument that
is falsy (`None`, `False`, an empty collection, an empty string date) is
replaced by the stored filter's value for that field before filtering; in
particular `apply_filter(published = False)` with no stored `published`
predicate merges to no published filter at all, so the view equals the one
computed with no published argument — while a `published = False`
predicate stored through `set_filter` does reach the merged filter, making
`set_filter` the only route to an unpublished-only view. -/
theorem C10_falsy_args_fall_back (parse : String → Int)
    (args stored : FilterArgs) (m : RM)
    (dataArg : Option (List RaceRecord)) :
    (truthyList args.countries = false →
      (mergeFilter parse args stored).countries = stored.countries)
  ∧ (truthyList args.courses = false →
      (mergeFilter parse args stored).courses = stored.courses)
  ∧ (truthyList args.course_codes = false →
      (mergeFilter parse args stored).course_codes = stored.course_codes)
  ∧ (truthyList args.race_types = false →
      (mergeFilter parse args stored).race_types = stored.race_types)
  ∧ (truthyPub args.published = false →
      (mergeFilter parse args stored).published = stored.published)
  ∧ (truthyDate args.start_date = false →
      (mergeFilter parse args stored).start_date
        = to_datetime parse stored.start_date)
  ∧ (truthyDate args.end_date = false →
      (mergeFilter parse args stored).end_date
        = to_datetime parse stored.end_date)
  ∧ (m._filter.published = none →
      (RM.apply_filter parse m { args with published := some false }
          dataArg)._list
        = (RM.apply_filter parse m { args with published := none }
            dataArg)._list)
  ∧ (stored.published = some false → args.published = none →
      (mergeFilter parse args stored).published = some false) := by
  refine ⟨?_, ?_, ?_, ?_, ?_, ?_, ?_, ?_, ?_⟩
  · intro h; simp [mergeFilter, orElseL, h]
  · intro h; simp [mergeFilter, orElseL, h]
  · intro h; simp [mergeFilter, orElseL, h]
  · intro h; simp [mergeFilter, orElseL, h]
  · intro h; simp [mergeFilter, orElseP, h]
  · intro h; simp [mergeFilter, orElseD, h]
  · intro h; simp [mergeFilter, orElseD, h]
  · intro h
    have hmerge : mergeFilter parse { args with published := some false }
        m._filter = mergeFilter parse { args with published := none }
        m._filter := by
      simp [mergeFilter, orElseP, truthyPub, h]
    cases dataArg with
    | none =>
      show applyEff parse (mergeFilter parse
          { args with published := some false } m._filter) m._data
        = applyEff parse (mergeFilter parse
          { args with published := none } m._filter) m._data
      rw [hmerge]
    | some rows =>
      show applyEff parse (mergeFilter parse
          { args with published := some false } m._filter)
          (importRows m._data rows)
        = applyEff parse (mergeFilter parse
          { args with published := none } m._filter)
          (importRows m._data rows)
      rw [hmerge]
  · intro hs ha; simp [mergeFilter, orElseP, truthyPub, hs, ha]

/-- Witness for `C10_falsy_args_fall_back`: empty-list and
`published = False` arguments against an empty stored filter. -/
theorem C10_falsy_args_fall_back_witness :
    (truthyList (some ([] : List String)) = false
      ∧ (mergeFilter (fun _ => 0) { countries := some [] } {}).countries
          = none)
    ∧ (RM.apply_filter (fun _ => 0) RM.init { published := some false }
        none)._list
      = (RM.apply_filter (fun _ => 0) RM.init { published := none }
        none)._list := by
  refine ⟨⟨rfl, ?_⟩, ?_⟩
  · exact (C10_falsy_args_fall_back (fun _ => 0) { countries := some [] }
      {} RM.init none).1 rfl
  · exact (C10_falsy_args_fall_back (fun _ => 0) {} {} RM.init
      none).2.2.2.2.2.2.2.1 rfl

/-- C7: the current `RaceMetadata.set_filter`
(`src/gmaxfeed/feeds/postrace_feeds.py`) accepts the `opts` dict in its
signature but never reads it — an unknown key such as `"bad_key"` is
silently ignored and the call returns normally with the filter set from
the named arguments only; the historical revision
(`src/feeds/postrace_feeds.py`) instead raises an `Exception` on the same
input, which is the behaviour the claim (and the surviving docstring)
describes. -/
theorem C7_unknown_filter_key (m : RM) (args : FilterArgs) :
    (RM.set_filter m args [("bad_key", .pint 1)])._filter = args
    ∧ (RM.set_filter m args [("bad_key", .pint 1)])._data = m._data
    ∧ (RM.set_filter m args [("bad_key", .pint 1)])._list = m._list
    ∧ set_filter_legacy [] [("bad_key", .pint 1)]
        = Except.error ("key bad_key given to RaceMetadata instance." ++
            "set_filter(), not recognised as valid option") := by
  exact ⟨rfl, rfl, rfl, rfl⟩

/-- C8: constructing the Feed Orchestrator with no explicit licence and no
`GMAXLICENCE` in the environment raises immediately
(`Except.error` with the no-licence message), and any construction that
does complete (`Except.ok`) carries a licence in its environment — there
is no credential-less completed state. -/
theorem C8_missing_licence_fatal (paths : PathArgs) (env0 : EnvMap)
    (h : env0.get "GMAXLICENCE" = none) :
    GmaxFeed_init none paths env0 = Except.error noLicenceMsg
    ∧ (∀ (licence : Option String) (env : EnvMap) (fs : GmaxFeedState),
        GmaxFeed_init licence paths env = Except.ok fs →
          (fs.env.get "GMAXLICENCE").isSome = true) := by
  constructor
  · simp [GmaxFeed_init, h]
  · intro licence env fs hok
    unfold GmaxFeed_init at hok
    simp only [] at hok
    rcases hg : (match licence with
      | some l => env.set "GMAXLICENCE" l
      | none => env).get "GMAXLICENCE" with _ | v
    · rw [hg] at hok
      cases hok
    · rw [hg] at hok
      cases hok
      simpa using congrArg Option.isSome hg

/-- Witness for `C8_missing_licence_fatal`: the empty environment. -/
theorem C8_missing_licence_fatal_witness :
    EnvMap.get ([] : EnvMap) "GMAXLICENCE" = none
    ∧ GmaxFeed_init none {} [] = Except.error noLicenceMsg := by
  exact ⟨rfl, (C8_missing_licence_fatal {} [] rfl).1⟩

theorem apply_thread_pool_eq_map {α β : Type} (m : Nat) (f : α → β)
    (l : List α) : apply_thread_pool m f l = l.map f := by
  unfold apply_thread_pool
  simp only []
  split
  · rfl
  · split
    · rfl
    · rename_i h2
      cases l with
      | nil => rfl
      | cons a t => simp at h2

theorem dictGetD_mkSc_sc (sc : String) (d : PyVal) :
    dictGetD (mkSc sc d) "sc" = .pstr sc := rfl

theorem dictAssign_fresh (d : List (String × PyVal)) (k : String) (v : PyVal)
    (h : ∀ kv ∈ d, kv.1 ≠ k) : dictAssign d k v = d ++ [(k, v)] := by
  have h' : d.any (fun kv => decide (kv.1 = k)) ≠ true := by
    simp only [ne_eq, List.any_eq_true, decide_eq_true_eq, not_exists, not_and]
    exact fun kv hkv => h kv hkv
  unfold dictAssign
  rw [if_neg h']

theorem mergeRows_aux (resolve : String → PyVal) (keys : List String)
    (acc : List (String × PyVal))
    (hdisj : ∀ sc ∈ keys, ∀ kv ∈ acc, kv.1 ≠ sc)
    (hnd : keys.Nodup) :
    List.foldl mergeRowStep acc (keys.map (fun sc => mkSc sc (resolve sc)))
      = acc ++ (keys.map (fun sc => (sc, resolve sc))).filter
          (fun kv => truthy kv.2) := by
  induction keys generalizing acc with
  | nil => simp
  | cons k t ih =>
    have hnd' : t.Nodup := (List.nodup_cons.mp hnd).2
    have hkt : k ∉ t := (List.nodup_cons.mp hnd).1
    simp only [List.map_cons, List.foldl_cons, List.filter_cons]
    cases htr : truthy (resolve k)
    · have hstep : mergeRowStep acc (mkSc k (resolve k)) = acc := by
        unfold mergeRowStep
        simp [dictGetD_mkSc_data, htr]
      rw [hstep,
        ih acc (fun sc hsc kv hkv => hdisj sc (List.mem_cons_of_mem k hsc)
          kv hkv) hnd']
      simp [htr]
    · have hstep : mergeRowStep acc (mkSc k (resolve k))
          = acc ++ [(k, resolve k)] := by
        unfold mergeRowStep
        simp only [dictGetD_mkSc_data, dictGetD_mkSc_sc, htr, if_true]
        exact dictAssign_fresh acc k (resolve k)
          (fun kv hkv => hdisj k (List.mem_cons_self k t) kv hkv)
      rw [hstep,
        ih (acc ++ [(k, resolve k)]) ?_ hnd']
      · simp [htr]
      · intro sc hsc kv hkv
        rcases List.mem_append.mp hkv with hkv | hkv
        · exact hdisj sc (List.mem_cons_of_mem k hsc) kv hkv
        · have hkv2 : kv = (k, resolve k) := by simpa using hkv
          rw [hkv2]
          intro hcon
          have hks : k = sc := hcon
          exact hkt (hks.symm ▸ hsc)

theorem dictFind_not_mem (resolve : String → PyVal) (t : List String)
    (sc : String) (h : sc ∉ t) :
    dictFind ((t.map (fun k => (k, resolve k))).filter
      (fun kv => truthy kv.2)) sc = none := by
  induction t with
  | nil => rfl
  | cons k u ih =>
    have hne : ¬(k = sc) :=
      fun he => h (he ▸ List.mem_cons_self k u)
    have hsc : sc ∉ u := fun hm => h (List.mem_cons_of_mem k hm)
    cases htr : truthy (resolve k)
    · simpa [List.filter_cons, htr] using ih hsc
    · simpa [List.filter_cons, htr, dictFind, List.find?_cons, hne]
        using ih hsc

theorem dictFind_mapfilter (resolve : String → PyVal) (keys : List String)
    (hnd : keys.Nodup) (sc : String) (v : PyVal) :
    dictFind ((keys.map (fun k => (k, resolve k))).filter
        (fun kv => truthy kv.2)) sc = some v
      ↔ (sc ∈ keys ∧ resolve sc = v ∧ truthy v = true) := by
  induction keys with
  | nil => simp [dictFind]
  | cons k t ih =>
    have hnd2 := List.nodup_cons.mp hnd
    by_cases hk : sc = k
    · subst hk
      cases htr : truthy (resolve sc)
      · simp only [List.map_cons, List.filter_cons, htr]
        rw [if_neg (by simp)]
        rw [dictFind_not_mem resolve t sc hnd2.1]
        constructor
        · intro h; cases h
        · rintro ⟨hmem, hv, htv⟩
          rw [← hv, htr] at htv
          cases htv
      · simp only [List.map_cons, List.filter_cons, htr]
        rw [if_pos (by simp)]
        have hfind : dictFind ((sc, resolve sc)
            :: ((t.map (fun k => (k, resolve k))).filter
              (fun kv => truthy kv.2))) sc = some (resolve sc) := by
          simp [dictFind, List.find?_cons]
        rw [hfind]
        constructor
        · intro hv
          refine ⟨List.mem_cons_self sc t, Option.some.inj hv, ?_⟩
          rw [← Option.some.inj hv]
          exact htr
        · rintro ⟨hmem, hv, htv⟩
          rw [hv]
    · have hmemiff : (sc ∈ k :: t) ↔ sc ∈ t := by
        simp [List.mem_cons, hk]
      cases htr : truthy (resolve k)
      · simp only [List.map_cons, List.filter_cons, htr]
        rw [if_neg (by simp)]
        rw [ih hnd2.2, hmemiff]
      · simp only [List.map_cons, List.filter_cons, htr]
        rw [if_pos (by simp)]
        have hstep : dictFind ((k, resolve k)
            :: ((t.map (fun j => (j, resolve j))).filter
              (fun kv => truthy kv.2))) sc
            = dictFind ((t.map (fun j => (j, resolve j))).filter
              (fun kv => truthy kv.2)) sc := by
          have hd : decide ((k, resolve k).1 = sc) = false := by
            simp only [decide_eq_false_iff_not]
            exact fun he => hk he.symm
          unfold dictFind
          rw [List.find?_cons]
          simp only [hd, cond_false]
        rw [hstep, ih hnd2.2, hmemiff]

/-- C9: a bulk fetch over distinct keys is independent of the worker pool
bound — for any two bounds the result mapping is identical and equals the
sequential map of the resolver over the keys filtered to truthy payloads —
and the mapping contains exactly the keys whose resolve produced a truthy
outcome, each bound to that outcome's payload. -/
theorem C9_bulk_fetch_deterministic (resolve : String → PyVal)
    (keys : List String) (m1 m2 : Nat) (sc : String) (v : PyVal)
    (hnd : keys.Nodup) :
    get_data_label m1 resolve keys = get_data_label m2 resolve keys
    ∧ get_data_label m1 resolve keys
        = (keys.map (fun k => (k, resolve k))).filter (fun kv => truthy kv.2)
    ∧ (dictFind (get_data_label m1 resolve keys) sc = some v
        ↔ (sc ∈ keys ∧ resolve sc = v ∧ truthy v = true)) := by
  have hmain : ∀ m : Nat, get_data_label m resolve keys
      = (keys.map (fun k => (k, resolve k))).filter
          (fun kv => truthy kv.2) := by
    intro m
    unfold get_data_label mergeRows
    rw [apply_thread_pool_eq_map]
    simpa using mergeRows_aux resolve keys []
      (fun sc hsc kv hkv => absurd hkv (List.not_mem_nil kv)) hnd
  refine ⟨(hmain m1).trans (hmain m2).symm, hmain m1, ?_⟩
  rw [hmain m1]
  exact dictFind_mapfilter resolve keys hnd sc v

/-- Witness for `C9_bulk_fetch_deterministic`: two distinct keys, one
truthy payload, pool bounds 1 and 8. -/
theorem C9_bulk_fetch_deterministic_witness :
    (["01a", "02b"] : List String).Nodup
    ∧ get_data_label 1 (fun sc => if sc = "01a" then .plist [.pint 1]
        else .pnone) ["01a", "02b"]
      = get_data_label 8 (fun sc => if sc = "01a" then .plist [.pint 1]
        else .pnone) ["01a", "02b"]
    ∧ (dictFind (get_data_label 1 (fun sc => if sc = "01a"
        then .plist [.pint 1] else .pnone) ["01a", "02b"]) "01a"
          = some (.plist [.pint 1])
        ↔ ("01a" ∈ (["01a", "02b"] : List String)
            ∧ (if "01a" = "01a" then PyVal.plist [.pint 1] else .pnone)
                = .plist [.pint 1]
            ∧ truthy (.plist [.pint 1]) = true)) := by
  refine ⟨by decide, ?_, ?_⟩
  · exact (C9_bulk_fetch_deterministic
      (fun sc => if sc = "01a" then .plist [.pint 1] else .pnone)
      ["01a", "02b"] 1 8 "01a" (.plist [.pint 1]) (by decide)).1
  · exact (C9_bulk_fetch_deterministic
      (fun sc => if sc = "01a" then .plist [.pint 1] else .pnone)
      ["01a", "02b"] 1 8 "01a" (.plist [.pint 1]) (by decide)).2.2
